import Mathlib

/-!
Shallow embedding of `install_build.py` (class `InstallationManager`), the
installation/build orchestrator of the Symphony repository.

External process behaviour is modelled by a function from an invocation
(the argument list passed to `subprocess.run`) to a `ProcResult`:
a genuine exit (`exited code stdout stderr`), a `subprocess.TimeoutExpired`
(`timedOut`), or a `FileNotFoundError` (`notFound`).  Console output is
modelled as a list of structured `Msg` values, one per `print`/`console.print`
call that depends on run data.  Interactive prompts are modelled by oracles
carried in `Inputs`: the rich path (`rich = true`) receives the boolean
returned by `Confirm.ask`, the basic path (`rich = false`) receives the raw
string returned by `input`, parsed exactly as the source parses it.
-/

namespace InstallBuild

/-- Result of one `subprocess.run` call: a real exit with captured streams,
a timeout, or a missing executable. -/
inductive ProcResult where
  | exited (code : Int) (stdout stderr : String)
  | timedOut
  | notFound
  deriving DecidableEq, Repr

/-- The `Command` dataclass of `install_build.py`. -/
structure Command where
  name : String
  cmd : List String
  description : String
  required : Bool := true
  check_cmd : Option (List String) := none
  install_hint : Option String := none
  deriving DecidableEq, Repr

/-- One data-dependent console message emitted by `run_command` or
`check_prerequisites`.  Constructors mirror the individual `print` /
`console.print` calls of the source. -/
inductive Msg where
  | toolNotFoundHint (hint : String)
  | completedOk (name : String)
  | outputPreview (text : String)
  | stepFailed (name : String)
  | errorOutput (text : String)
  | timedOutMsg (name : String)
  | failedWithCode (name : String) (code : Int)
  | cmdNotFound (name : String)
  | hintMsg (hint : String)
  | basicRunning (descr : String)
  | basicError (name : String)
  deriving DecidableEq, Repr

/-- `True` exactly when the process ran and returned exit code 0
(`result.returncode == 0` after a successful `subprocess.run`). -/
def isExitZero : ProcResult → Bool
  | .exited code _ _ => code == 0
  | .timedOut => false
  | .notFound => false

/-- The body of the rich branch of `run_command` after a successful
`check_cmd` gate (or when there is no `check_cmd`): run `command.cmd`
with `timeout=300` and classify by exit code, catching
`TimeoutExpired` and `FileNotFoundError`. -/
def runMainRich (env : List String → ProcResult) (c : Command) : Bool × List Msg :=
  match env c.cmd with
  | .exited code out err =>
      if code = 0 then
        (true, [Msg.completedOk c.name] ++
          (if (out.trim).isEmpty then [] else [Msg.outputPreview ((out.trim).take 100)]))
      else
        (false, [Msg.stepFailed c.name] ++
          (if err.isEmpty then [] else [Msg.errorOutput ((err.trim).take 200)]))
  | .timedOut => (false, [Msg.timedOutMsg c.name])
  | .notFound =>
      (false, [Msg.cmdNotFound c.name] ++
        (match c.install_hint with
         | some h => [Msg.hintMsg h]
         | none => []))

/-- The rich (`RICH_AVAILABLE`) branch of `InstallationManager.run_command`:
when `check_cmd` is declared it is run first with `timeout=10`; a non-zero
return prints the `install_hint` (if any) and raises `CalledProcessError`,
caught below and classified as failure without running `cmd`.  A
`TimeoutExpired` or `FileNotFoundError` from either call is caught by the
same handlers. -/
def run_command_rich (env : List String → ProcResult) (c : Command) : Bool × List Msg :=
  match c.check_cmd with
  | some chk =>
      match env chk with
      | .exited code _ _ =>
          if code = 0 then runMainRich env c
          else
            (false,
              (match c.install_hint with
               | some h => [Msg.toolNotFoundHint h]
               | none => []) ++ [Msg.failedWithCode c.name code])
      | .timedOut => (false, [Msg.timedOutMsg c.name])
      | .notFound =>
          (false, [Msg.cmdNotFound c.name] ++
            (match c.install_hint with
             | some h => [Msg.hintMsg h]
             | none => []))
  | none => runMainRich env c

/-- The fallback (basic console) branch of `InstallationManager.run_command`:
it runs `command.cmd` directly — it never consults `check_cmd` — and its
single `except Exception` handler turns both a timeout and a missing
executable into the same generic error message. -/
def run_command_basic (env : List String → ProcResult) (c : Command) : Bool × List Msg :=
  match env c.cmd with
  | .exited code _ err =>
      if code = 0 then
        (true, [Msg.basicRunning c.description, Msg.completedOk c.name])
      else
        (false, [Msg.basicRunning c.description, Msg.stepFailed c.name] ++
          (if err.isEmpty then [] else [Msg.errorOutput ((err.trim).take 200)]))
  | .timedOut => (false, [Msg.basicRunning c.description, Msg.basicError c.name])
  | .notFound => (false, [Msg.basicRunning c.description, Msg.basicError c.name])

/-- `InstallationManager.run_command`: dispatch on `RICH_AVAILABLE`. -/
def run_command (rich : Bool) (env : List String → ProcResult) (c : Command) :
    Bool × List Msg :=
  if rich then run_command_rich env c else run_command_basic env c

/-- The three accumulator lists of `InstallationManager`
(`successful_commands`, `failed_commands`, `skipped_commands`). -/
structure RunState where
  successful : List String
  failed : List String
  skipped : List String
  deriving DecidableEq, Repr

/-- The accumulators as initialised in `InstallationManager.__init__`. -/
def initState : RunState := ⟨[], [], []⟩

/-- All run-dependent inputs of one execution: which console branch is taken,
the behaviour of every spawned process, and the user's prompt responses
(rich prompts yield booleans from `Confirm.ask`; basic prompts yield the raw
`input()` strings, indexed by the 1-based step number for the per-step
continuation prompt). -/
structure Inputs where
  rich : Bool
  env : List String → ProcResult
  confirmRich : Bool
  confirmBasicResp : String
  contRich : Nat → Bool
  contBasicResp : Nat → String

/-- Whether the one-time pre-run confirmation is declined: rich path
`not Confirm.ask(...)`; basic path `response.strip().lower() in ['n', 'no']`. -/
def declinesInstall (inp : Inputs) : Bool :=
  if inp.rich then !inp.confirmRich
  else
    ((inp.confirmBasicResp.trim.toLower) == "n") ||
      ((inp.confirmBasicResp.trim.toLower) == "no")

/-- Whether the continue-despite-failure prompt at step `i` is answered
affirmatively: rich path the `Confirm.ask` boolean; basic path
`response.strip().lower() in ['y', 'yes']` (anything else breaks the loop). -/
def acceptsContinue (inp : Inputs) (i : Nat) : Bool :=
  if inp.rich then inp.contRich i
  else
    (((inp.contBasicResp i).trim.toLower) == "y") ||
      (((inp.contBasicResp i).trim.toLower) == "yes")

/-- The `for i, command in enumerate(self.commands, 1)` loop of
`run_installation`: classify each step via `run_command`, append its name to
`successful_commands` or `failed_commands`, and on a required failure consult
the continuation prompt — declining executes `break`.  Returns the final
accumulator state and whether the loop was broken (halted). -/
def run_steps (inp : Inputs) : List Command → Nat → RunState → RunState × Bool
  | [], _, st => (st, false)
  | c :: rest, i, st =>
      if (run_command inp.rich inp.env c).1 then
        run_steps inp rest (i + 1)
          { st with successful := st.successful ++ [c.name] }
      else
        if c.required then
          if acceptsContinue inp i then
            run_steps inp rest (i + 1) { st with failed := st.failed ++ [c.name] }
          else
            ({ st with failed := st.failed ++ [c.name] }, true)
        else
          run_steps inp rest (i + 1) { st with failed := st.failed ++ [c.name] }

/-- The fixed `(tool, cmd, name)` prerequisite triples of
`check_prerequisites`. -/
def prerequisites : List (String × List String × String) :=
  [("node", ["node", "--version"], "Node.js"),
   ("npm", ["npm", "--version"], "npm"),
   ("git", ["git", "--version"], "Git")]

/-- The loop of `check_prerequisites`: a prerequisite is missing when its
version invocation returns non-zero or raises (timeout, not found,
subprocess error). -/
def missingOf (env : List String → ProcResult) :
    List (String × List String × String) → List String
  | [] => []
  | p :: rest =>
      match env p.2.1 with
      | .exited code _ _ =>
          if code = 0 then missingOf env rest else p.2.2 :: missingOf env rest
      | .timedOut => p.2.2 :: missingOf env rest
      | .notFound => p.2.2 :: missingOf env rest

/-- `InstallationManager.check_prerequisites`: returns whether all
prerequisites are present together with the missing-name list that the
source prints (`Missing prerequisites: ...`) when non-empty. -/
def check_prerequisites (env : List String → ProcResult) : Bool × List String :=
  (((missingOf env prerequisites).isEmpty : Bool), missingOf env prerequisites)

/-- The fixed `self.commands` list built in `InstallationManager.__init__`. -/
def commands : List Command :=
  [{ name := "Node.js/pnpm Check", cmd := ["pnpm", "--version"],
     description := "Checking if pnpm is available",
     check_cmd := some ["pnpm", "--version"],
     install_hint := some "Install pnpm: npm install -g pnpm" },
   { name := "Rust/Cargo Check", cmd := ["cargo", "--version"],
     description := "Checking if Cargo is available",
     check_cmd := some ["cargo", "--version"],
     install_hint := some "Install Rust: https://rustup.rs/" },
   { name := "Frontend Dependencies", cmd := ["pnpm", "install"],
     description := "Installing frontend dependencies with pnpm" },
   { name := "Rust Dependencies Fetch", cmd := ["cargo", "fetch"],
     description := "Fetching Rust dependencies" },
   { name := "Rust Dependencies Build", cmd := ["cargo", "build"],
     description := "Building Rust dependencies" },
   { name := "Tauri CLI", cmd := ["cargo", "install", "tauri-cli", "--version", "^1"],
     description := "Installing Tauri CLI (latest v1.x)" },
   { name := "Cargo Nextest", cmd := ["cargo", "install", "--locked", "cargo-nextest"],
     description := "Installing cargo-nextest for enhanced testing" },
   { name := "Cargo Helper Tools", cmd := ["cargo", "install", "cargo-edit", "cargo-watch"],
     description := "Installing cargo-edit and cargo-watch utilities" }]

/-- How `run_installation` can end at the process level: `exited n` models a
`sys.exit(n)` call (the `SystemExit` is not caught by `main`'s
`except Exception`, so `n` becomes the process exit status); `completed st`
models falling through `print_summary` and returning normally from `main`,
after which Python exits with status 0. -/
inductive RunResult where
  | exited (code : Nat)
  | completed (st : RunState)
  deriving DecidableEq, Repr

/-- `InstallationManager.run_installation`, with the step list as a
parameter (the source iterates the fixed `self.commands`): abort with
`sys.exit(1)` when a prerequisite is missing, `sys.exit(0)` when the
confirmation prompt is declined, otherwise run the step loop and fall
through to `print_summary`. -/
def run_installation (inp : Inputs) (cmds : List Command) : RunResult :=
  if !(check_prerequisites inp.env).1 then RunResult.exited 1
  else if declinesInstall inp then RunResult.exited 0
  else RunResult.completed (run_steps inp cmds 1 initState).1

/-- The process-level exit status of a run that is not interrupted and
raises no unexpected exception: a `sys.exit(n)` yields `n`; a normal return
from `main` yields 0. -/
def processExitStatus : RunResult → Nat
  | .exited code => code
  | .completed _ => 0

/-- The complete set of step names that `InstallationManager.print_summary`
can display: every name it prints (table rows or plain-text lists, in either
console branch) is drawn from `successful_commands`, `failed_commands` or
`skipped_commands`.  A step in none of the three lists appears nowhere in
the summary. -/
def summaryNames (st : RunState) : List String :=
  st.successful ++ st.failed ++ st.skipped

/-- Point-update of a process environment, used to state that a result does
not depend on the behaviour of a given invocation. -/
def overrideEnv (env : List String → ProcResult) (k : List String)
    (v : ProcResult) : List String → ProcResult :=
  fun x => if x = k then v else env x

/-! Concrete runs used as counterexamples and witnesses. -/

/-- Environment in which `pnpm install` exits 1 and every other invocation
exits 0. -/
def c1env : List String → ProcResult :=
  fun l =>
    if l = ["pnpm", "install"] then ProcResult.exited 1 "" ""
    else ProcResult.exited 0 "" ""

/-- Rich-console run against `c1env` where the user confirms installation and
accepts every continue-despite-failure prompt. -/
def c1inp : Inputs :=
  { rich := true, env := c1env, confirmRich := true, confirmBasicResp := "",
    contRich := fun _ => true, contBasicResp := fun _ => "" }

/-- All-zero environment with the confirmation prompt declined. -/
def c4inp : Inputs :=
  { rich := true, env := fun _ => ProcResult.exited 0 "" "",
    confirmRich := false, confirmBasicResp := "",
    contRich := fun _ => true, contBasicResp := fun _ => "" }

/-- Required step whose invocation fails, followed by a step that would
succeed. -/
def st3B : Command := { name := "B", cmd := ["cmdB"], description := "step B" }

/-- The step after the failing one, never attempted once the user declines. -/
def st3C : Command := { name := "C", cmd := ["cmdC"], description := "step C" }

/-- Run in which step B fails and the continuation prompt is declined. -/
def inp3 : Inputs :=
  { rich := true,
    env := fun l =>
      if l = ["cmdB"] then ProcResult.exited 1 "" "" else ProcResult.exited 0 "" "",
    confirmRich := true, confirmBasicResp := "",
    contRich := fun _ => false, contBasicResp := fun _ => "" }

/-- Step with a precheck that fails while its main invocation succeeds. -/
def st8 : Command :=
  { name := "S8", cmd := ["s8", "main"], description := "run s8",
    required := true, check_cmd := some ["s8", "check"],
    install_hint := some "install s8" }

/-- Environment for `st8`: the precheck exits 1, everything else exits 0. -/
def env8 : List String → ProcResult :=
  fun l =>
    if l = ["s8", "check"] then ProcResult.exited 1 "" ""
    else ProcResult.exited 0 "" ""

/-- Optional step used to compare a timeout with an ordinary failure. -/
def st9 : Command :=
  { name := "S9", cmd := ["s9"], description := "run s9", required := false }

/-- Run in which step `st9` times out. -/
def inp9T : Inputs :=
  { rich := true,
    env := fun l => if l = ["s9"] then ProcResult.timedOut else ProcResult.exited 0 "" "",
    confirmRich := true, confirmBasicResp := "",
    contRich := fun _ => true, contBasicResp := fun _ => "" }

/-- Run in which step `st9` exits 1 (ordinary failure). -/
def inp9E : Inputs :=
  { inp9T with
    env := fun l =>
      if l = ["s9"] then ProcResult.exited 1 "" "" else ProcResult.exited 0 "" "" }

/-- Step with a failing precheck and a succeeding invocation, for the
rich-versus-basic classification comparison. -/
def st10 : Command :=
  { name := "S10", cmd := ["s10", "main"], description := "run s10",
    required := true, check_cmd := some ["s10", "check"],
    install_hint := some "install s10" }

/-- Environment for `st10`: the precheck exits 1, everything else exits 0. -/
def env10 : List String → ProcResult :=
  fun l =>
    if l = ["s10", "check"] then ProcResult.exited 1 "" ""
    else ProcResult.exited 0 "" ""

/-! Theorems settling the claims. -/

/-- Both subprocess calls of a step exit 0: its main invocation, and its
precheck when one is declared. -/
def stepAllZero (env : List String → ProcResult) (s : Command) : Bool :=
  isExitZero (env s.cmd) &&
    (match s.check_cmd with
     | some chk => isExitZero (env chk)
     | none => true)

/-- A result with `isExitZero` is a genuine exit with code 0. -/
theorem isExitZero_eq (r : ProcResult) (h : isExitZero r = true) :
    ∃ out err, r = ProcResult.exited 0 out err := by
  cases r with
  | exited code out err =>
      simp only [isExitZero, beq_iff_eq] at h
      exact ⟨out, err, by rw [h]⟩
  | timedOut => simp [isExitZero] at h
  | notFound => simp [isExitZero] at h

/-- A step both of whose subprocess calls exit 0 is classified successful on
either console path. -/
theorem run_command_ok (rich : Bool) (env : List String → ProcResult)
    (c : Command) (h : stepAllZero env c = true) :
    (run_command rich env c).1 = true := by
  unfold stepAllZero at h
  rw [Bool.and_eq_true] at h
  obtain ⟨out, err, hm⟩ := isExitZero_eq _ h.1
  cases rich with
  | false => simp [run_command, run_command_basic, hm]
  | true =>
      cases hc : c.check_cmd with
      | none => simp [run_command, run_command_rich, hc, runMainRich, hm]
      | some chk =>
          have h2 := h.2
          rw [hc] at h2
          obtain ⟨o2, e2, hchk⟩ := isExitZero_eq _ h2
          simp [run_command, run_command_rich, hc, hchk, runMainRich, hm]

/-- The step loop when every step of the list is classified successful:
each name is appended to `successful_commands` in order and the loop is
never broken. -/
theorem run_steps_all_ok (inp : Inputs) :
    ∀ (cmds : List Command) (i : Nat) (st : RunState),
      (∀ s ∈ cmds, (run_command inp.rich inp.env s).1 = true) →
      run_steps inp cmds i st =
        ({ st with successful := st.successful ++ cmds.map Command.name },
          false) := by
  intro cmds
  induction cmds with
  | nil => intro i st _; simp [run_steps]
  | cons c rest ih =>
      intro i st h
      have hc : (run_command inp.rich inp.env c).1 = true := h c (by simp)
      rw [run_steps, if_pos hc, ih (i + 1) _ (fun s hs => h s (by simp [hs]))]
      simp

/-- C6: when every step's invocation (and precheck, when present) exits 0,
the run classifies every step successful: `successful_commands` is exactly
the input names in declared order, and `failed_commands` and
`skipped_commands` are empty, with the loop never broken. -/
theorem C6_all_success (inp : Inputs) (cmds : List Command)
    (h : ∀ s ∈ cmds, stepAllZero inp.env s = true) :
    run_steps inp cmds 1 initState =
      (⟨cmds.map Command.name, [], []⟩, false) := by
  rw [run_steps_all_ok inp cmds 1 initState
    (fun s hs => run_command_ok inp.rich inp.env s (h s hs))]
  rfl

/-- C6 witness: the real `self.commands` list in an environment where every
invocation exits 0. -/
theorem C6_all_success_witness :
    (∀ s ∈ commands, stepAllZero c4inp.env s = true) ∧
    run_steps c4inp commands 1 initState =
      (⟨commands.map Command.name, [], []⟩, false) :=
  ⟨by decide, C6_all_success c4inp commands (by decide)⟩

/-- C7: an optional (`required = false`) step whose classification is a
failure appends its name to `failed_commands` and execution proceeds
directly to the next step; no continuation prompt occurs — the behaviour is
the same for every value of the continuation-prompt oracles. -/
theorem C7_optional_never_halts (inp : Inputs) (c : Command)
    (rest : List Command) (i : Nat) (st : RunState)
    (hopt : c.required = false)
    (hfail : (run_command inp.rich inp.env c).1 = false) :
    run_steps inp (c :: rest) i st =
      run_steps inp rest (i + 1) { st with failed := st.failed ++ [c.name] } ∧
    ∀ (f : Nat → Bool) (g : Nat → String),
      run_steps { inp with contRich := f, contBasicResp := g } (c :: rest) i st =
        run_steps { inp with contRich := f, contBasicResp := g } rest (i + 1)
          { st with failed := st.failed ++ [c.name] } := by
  constructor
  · rw [run_steps, if_neg (by simp [hfail]), if_neg (by simp [hopt])]
  · intro f g
    rw [run_steps, if_neg (by simp [hfail]), if_neg (by simp [hopt])]

/-- C7 witness: optional step `st9` failing (exit 1) before step `st3C`. -/
theorem C7_optional_never_halts_witness :
    (st9.required = false ∧
      (run_command inp9E.rich inp9E.env st9).1 = false) ∧
    (run_steps inp9E (st9 :: [st3C]) 1 initState =
        run_steps inp9E [st3C] (1 + 1)
          { initState with failed := initState.failed ++ [st9.name] } ∧
      ∀ (f : Nat → Bool) (g : Nat → String),
        run_steps { inp9E with contRich := f, contBasicResp := g }
            (st9 :: [st3C]) 1 initState =
          run_steps { inp9E with contRich := f, contBasicResp := g } [st3C]
            (1 + 1)
            { initState with failed := initState.failed ++ [st9.name] }) :=
  ⟨⟨by decide, by decide⟩,
    C7_optional_never_halts inp9E st9 [st3C] 1 initState (by decide) (by decide)⟩

/-- C1 counterexample: in a full `run_installation` over the real
`self.commands` list where the required step "Frontend Dependencies" (index 2,
`required = true`) fails and the user accepts the continuation prompt, the
run completes with that step in `failed_commands`, yet the process exit
status is 0 — refuting the claim that it is non-zero whenever a required
step failed. -/
theorem C1_counterexample :
    run_installation c1inp commands =
      RunResult.completed
        ⟨["Node.js/pnpm Check", "Rust/Cargo Check", "Rust Dependencies Fetch",
          "Rust Dependencies Build", "Tauri CLI", "Cargo Nextest",
          "Cargo Helper Tools"],
         ["Frontend Dependencies"], []⟩ ∧
    (commands.get? 2).map Command.required = some true ∧
    (commands.get? 2).map Command.name = some "Frontend Dependencies" ∧
    processExitStatus (run_installation c1inp commands) = 0 := by
  decide

/-- C1 amended: the process exit status is 1 exactly when a mandatory
prerequisite is missing, and 0 in every other case — including runs in which
required steps failed (whether the failures were accepted or the pipeline
halted) and runs cancelled at the confirmation prompt. -/
theorem C1_amended_exit_status (inp : Inputs) (cmds : List Command) :
    processExitStatus (run_installation inp cmds) =
      if (check_prerequisites inp.env).1 then 0 else 1 := by
  unfold run_installation
  by_cases h : (check_prerequisites inp.env).1
  · by_cases hd : declinesInstall inp <;> simp [h, hd, processExitStatus]
  · simp [h, processExitStatus]

/-- C4 counterexample: with all prerequisites present, declining the one-time
confirmation prompt executes `sys.exit(0)`: the run aborts with no steps run
but the process exit status is 0, refuting the claimed non-zero status. -/
theorem C4_counterexample :
    run_installation c4inp commands = RunResult.exited 0 ∧
    processExitStatus (run_installation c4inp commands) = 0 := by
  decide

/-- C4 amended: when the prerequisites all pass and the user declines the
one-time confirmation prompt, the run aborts immediately with no steps
executed (no `RunState` is ever produced) and the process exit status is 0,
not non-zero. -/
theorem C4_amended_decline_exit (inp : Inputs) (cmds : List Command)
    (hok : (check_prerequisites inp.env).1 = true)
    (hdecl : declinesInstall inp = true) :
    run_installation inp cmds = RunResult.exited 0 ∧
    processExitStatus (run_installation inp cmds) = 0 := by
  constructor
  · simp [run_installation, hok, hdecl]
  · simp [run_installation, hok, hdecl, processExitStatus]

/-- C4 amended witness: the concrete declined run `c4inp`. -/
theorem C4_amended_decline_exit_witness :
    ((check_prerequisites c4inp.env).1 = true ∧ declinesInstall c4inp = true) ∧
    (run_installation c4inp commands = RunResult.exited 0 ∧
      processExitStatus (run_installation c4inp commands) = 0) :=
  ⟨⟨by decide, by decide⟩,
    C4_amended_decline_exit c4inp commands (by decide) (by decide)⟩

/-- The step loop on a list `pre ++ c :: post` in which every step of `pre`
is classified successful, `c` is a required failure, and the continuation
prompt at `c`'s position is declined: the loop breaks at `c`, leaving
`pre`'s names in `successful_commands`, `c`'s name in `failed_commands`,
and the steps of `post` untouched. -/
theorem run_steps_halt (inp : Inputs) (c : Command) (post : List Command) :
    ∀ (pre : List Command) (i : Nat) (st : RunState),
      (∀ s ∈ pre, (run_command inp.rich inp.env s).1 = true) →
      (run_command inp.rich inp.env c).1 = false →
      c.required = true →
      acceptsContinue inp (i + pre.length) = false →
      run_steps inp (pre ++ c :: post) i st =
        ({ st with successful := st.successful ++ pre.map Command.name,
                   failed := st.failed ++ [c.name] }, true) := by
  intro pre
  induction pre with
  | nil =>
      intro i st _ hc hreq hdecl
      simp only [List.length_nil, Nat.add_zero] at hdecl
      rw [List.nil_append, run_steps, if_neg (by simp [hc]),
        if_pos (by simp [hreq]), if_neg (by simp [hdecl])]
      simp
  | cons s pre ih =>
      intro i st hpre hc hreq hdecl
      have hs : (run_command inp.rich inp.env s).1 = true := hpre s (by simp)
      have hdecl' : acceptsContinue inp ((i + 1) + pre.length) = false := by
        rw [show (i + 1) + pre.length = i + (s :: pre).length by
          simp [List.length_cons]; omega]
        exact hdecl
      rw [List.cons_append, run_steps, if_pos hs,
        ih (i + 1) _ (fun t ht => hpre t (by simp [ht])) hc hreq hdecl']
      simp

/-- C2: for a step list `pre ++ c :: post` where every step of `pre` is
classified successful, `c` is required and fails, and the user declines the
continuation prompt, the pipeline halts at `c`: the final state is exactly
(`pre`'s names, `[c.name]`, `[]`), every step of `pre` is in `successful`,
`c` is in `failed`, and (names being distinct) every step of `post` is
absent from all three sequences. -/
theorem C2_halt_on_decline (inp : Inputs) (pre : List Command) (c : Command)
    (post : List Command)
    (hpre : ∀ s ∈ pre, (run_command inp.rich inp.env s).1 = true)
    (hc : (run_command inp.rich inp.env c).1 = false)
    (hreq : c.required = true)
    (hdecl : acceptsContinue inp (1 + pre.length) = false)
    (hnodup : ((pre ++ c :: post).map Command.name).Nodup) :
    run_steps inp (pre ++ c :: post) 1 initState =
      (⟨pre.map Command.name, [c.name], []⟩, true) ∧
    (∀ s ∈ pre,
      s.name ∈ (run_steps inp (pre ++ c :: post) 1 initState).1.successful) ∧
    c.name ∈ (run_steps inp (pre ++ c :: post) 1 initState).1.failed ∧
    (∀ d ∈ post,
      d.name ∉ (run_steps inp (pre ++ c :: post) 1 initState).1.successful ∧
      d.name ∉ (run_steps inp (pre ++ c :: post) 1 initState).1.failed ∧
      d.name ∉ (run_steps inp (pre ++ c :: post) 1 initState).1.skipped) := by
  have hrun := run_steps_halt inp c post pre 1 initState hpre hc hreq hdecl
  have hstate : run_steps inp (pre ++ c :: post) 1 initState =
      (⟨pre.map Command.name, [c.name], []⟩, true) := by
    rw [hrun]; rfl
  rw [List.map_append, List.map_cons, List.nodup_append] at hnodup
  obtain ⟨-, hnodup2, hdisj⟩ := hnodup
  rw [List.nodup_cons] at hnodup2
  refine ⟨hstate, ?_, ?_, ?_⟩
  · intro s hs
    rw [hstate]
    exact List.mem_map_of_mem Command.name hs
  · rw [hstate]
    simp
  · intro d hd
    have hdmem : d.name ∈ post.map Command.name :=
      List.mem_map_of_mem Command.name hd
    refine ⟨?_, ?_, ?_⟩
    · rw [hstate]
      intro habs
      exact hdisj habs (by simp [hdmem])
    · rw [hstate]
      simp only [List.mem_singleton]
      intro habs
      exact hnodup2.1 (habs ▸ hdmem)
    · rw [hstate]
      simp

/-- Steps for the C2 witness: A succeeds, B is required and fails, C would
succeed but is never reached. -/
def w2A : Command := { name := "WA", cmd := ["cmdWA"], description := "step WA" }

/-- The failing required step of the C2 witness. -/
def w2B : Command := { name := "WB", cmd := ["cmdWB"], description := "step WB" }

/-- The never-reached step of the C2 witness. -/
def w2C : Command := { name := "WC", cmd := ["cmdWC"], description := "step WC" }

/-- Run for the C2 witness: `cmdWB` exits 1, everything else exits 0, and
every continuation prompt is declined. -/
def w2inp : Inputs :=
  { rich := true,
    env := fun l =>
      if l = ["cmdWB"] then ProcResult.exited 1 "" "" else ProcResult.exited 0 "" "",
    confirmRich := true, confirmBasicResp := "",
    contRich := fun _ => false, contBasicResp := fun _ => "" }

/-- C2 witness: the concrete three-step halted run. -/
theorem C2_halt_on_decline_witness :
    ((∀ s ∈ [w2A], (run_command w2inp.rich w2inp.env s).1 = true) ∧
     (run_command w2inp.rich w2inp.env w2B).1 = false ∧
     w2B.required = true ∧
     acceptsContinue w2inp (1 + [w2A].length) = false ∧
     (([w2A] ++ w2B :: [w2C]).map Command.name).Nodup) ∧
    (run_steps w2inp ([w2A] ++ w2B :: [w2C]) 1 initState =
        (⟨[w2A].map Command.name, [w2B.name], []⟩, true) ∧
      (∀ s ∈ [w2A],
        s.name ∈
          (run_steps w2inp ([w2A] ++ w2B :: [w2C]) 1 initState).1.successful) ∧
      w2B.name ∈
        (run_steps w2inp ([w2A] ++ w2B :: [w2C]) 1 initState).1.failed ∧
      (∀ d ∈ [w2C],
        d.name ∉
          (run_steps w2inp ([w2A] ++ w2B :: [w2C]) 1 initState).1.successful ∧
        d.name ∉
          (run_steps w2inp ([w2A] ++ w2B :: [w2C]) 1 initState).1.failed ∧
        d.name ∉
          (run_steps w2inp ([w2A] ++ w2B :: [w2C]) 1 initState).1.skipped)) :=
  ⟨⟨by decide, by decide, by decide, by decide, by decide⟩,
    C2_halt_on_decline w2inp [w2A] w2B [w2C] (by decide) (by decide)
      (by decide) (by decide) (by decide)⟩

/-- C3 counterexample: in a halted run (required step B fails, user
declines), the run completes with `successful = []`, `failed = ["B"]`,
`skipped = []`; step C was never classified and its name appears nowhere in
the set of names the summary can display — it is silently dropped, not shown
as "not attempted". -/
theorem C3_counterexample :
    run_installation inp3 [st3B, st3C] = RunResult.completed ⟨[], ["B"], []⟩ ∧
    (run_steps inp3 [st3B, st3C] 1 initState).2 = true ∧
    st3C.name = "C" ∧
    summaryNames ⟨[], ["B"], []⟩ = ["B"] ∧
    "C" ∉ summaryNames ⟨[], ["B"], []⟩ := by
  decide

/-- Occurrence counting through the step loop: when the loop is not broken,
each processed step contributes its name to exactly one accumulator list. -/
theorem run_steps_counts (inp : Inputs) (n : String) :
    ∀ (cmds : List Command) (i : Nat) (st : RunState),
      (run_steps inp cmds i st).2 = false →
      (run_steps inp cmds i st).1.successful.count n +
        (run_steps inp cmds i st).1.failed.count n +
        (run_steps inp cmds i st).1.skipped.count n =
      (st.successful.count n + st.failed.count n + st.skipped.count n) +
        (cmds.map Command.name).count n := by
  intro cmds
  induction cmds with
  | nil => intro i st _; simp [run_steps]
  | cons c rest ih =>
      intro i st h
      by_cases hc : (run_command inp.rich inp.env c).1 = true
      · rw [run_steps, if_pos hc] at h ⊢
        rw [ih (i + 1) _ h]
        simp [List.count_append, List.count_cons]
        omega
      · rw [Bool.not_eq_true] at hc
        by_cases hreq : c.required = true
        · by_cases hacc : acceptsContinue inp i = true
          · rw [run_steps, if_neg (by simp [hc]), if_pos hreq,
              if_pos hacc] at h ⊢
            rw [ih (i + 1) _ h]
            simp [List.count_append, List.count_cons]
            omega
          · rw [run_steps, if_neg (by simp [hc]), if_pos hreq,
              if_neg hacc] at h
            simp at h
        · rw [run_steps, if_neg (by simp [hc]), if_neg hreq] at h ⊢
          rw [ih (i + 1) _ h]
          simp [List.count_append, List.count_cons]
          omega

/-- C3 amended: after a run that is neither aborted nor halted, every step
name appears in exactly one of the three outcome sequences (stated as: the
occurrences of any name across `successful`, `failed` and `skipped` equal
its occurrences in the input names).  In a halted run the unattempted steps
appear in none of the sequences and hence nowhere in the summary. -/
theorem C3_amended_partition (inp : Inputs) (cmds : List Command) (n : String)
    (h : (run_steps inp cmds 1 initState).2 = false) :
    (run_steps inp cmds 1 initState).1.successful.count n +
      (run_steps inp cmds 1 initState).1.failed.count n +
      (run_steps inp cmds 1 initState).1.skipped.count n =
    (cmds.map Command.name).count n := by
  have := run_steps_counts inp n cmds 1 initState h
  simpa [initState] using this

/-- C3 amended witness: the `c1inp` run over the real command list, counting
the failed step name. -/
theorem C3_amended_partition_witness :
    ((run_steps c1inp commands 1 initState).2 = false) ∧
    (run_steps c1inp commands 1 initState).1.successful.count
        "Frontend Dependencies" +
      (run_steps c1inp commands 1 initState).1.failed.count
        "Frontend Dependencies" +
      (run_steps c1inp commands 1 initState).1.skipped.count
        "Frontend Dependencies" =
    (commands.map Command.name).count "Frontend Dependencies" :=
  ⟨by decide,
    C3_amended_partition c1inp commands "Frontend Dependencies" (by decide)⟩

/-- The missing-prerequisite list is exactly the names of the prerequisites
whose version invocation does not exit 0, in declared order. -/
theorem missingOf_eq_filter (env : List String → ProcResult) :
    ∀ l : List (String × List String × String),
      missingOf env l =
        (l.filter (fun p => !(isExitZero (env p.2.1)))).map
          (fun p => p.2.2) := by
  intro l
  induction l with
  | nil => simp [missingOf]
  | cons p rest ih =>
      cases h : env p.2.1 with
      | exited code out err =>
          by_cases hz : code = 0
          · subst hz
            rw [missingOf, h]
            simp [List.filter_cons, isExitZero, h, ih]
          · rw [missingOf, h]
            simp [List.filter_cons, isExitZero, h, hz, ih]
      | timedOut =>
          rw [missingOf, h]
          simp [List.filter_cons, isExitZero, h, ih]
      | notFound =>
          rw [missingOf, h]
          simp [List.filter_cons, isExitZero, h, ih]

/-- C5: when at least one mandatory prerequisite (Node.js, npm or Git) is
absent, the run aborts with `sys.exit(1)` before the step loop — no
`RunState` is produced, so no step is classified and no step invocation
runs — the surfaced missing list is exactly the absent tools in order and is
non-empty, and the abort ignores every continue-on-failure answer (the
conclusion holds for every prompt oracle carried by `inp`). -/
theorem C5_prereq_abort (inp : Inputs) (cmds : List Command)
    (h : ∃ p ∈ prerequisites, isExitZero (inp.env p.2.1) = false) :
    run_installation inp cmds = RunResult.exited 1 ∧
    processExitStatus (run_installation inp cmds) = 1 ∧
    (check_prerequisites inp.env).2 ≠ [] ∧
    (check_prerequisites inp.env).2 =
      (prerequisites.filter (fun p => !(isExitZero (inp.env p.2.1)))).map
        (fun p => p.2.2) := by
  obtain ⟨p, hp, hfail⟩ := h
  have hmem : p.2.2 ∈ missingOf inp.env prerequisites := by
    rw [missingOf_eq_filter]
    exact List.mem_map_of_mem _ (List.mem_filter.2 ⟨hp, by simp [hfail]⟩)
  have hne : missingOf inp.env prerequisites ≠ [] :=
    List.ne_nil_of_mem hmem
  have hbool : (check_prerequisites inp.env).1 = false := by
    simp only [check_prerequisites]
    simpa [List.isEmpty_iff] using hne
  refine ⟨?_, ?_, ?_, ?_⟩
  · simp [run_installation, hbool]
  · simp [run_installation, hbool, processExitStatus]
  · simpa [check_prerequisites] using hne
  · simp only [check_prerequisites]
    exact missingOf_eq_filter inp.env prerequisites

/-- Run in which `node --version` raises `FileNotFoundError` and every other
invocation exits 0. -/
def inp5 : Inputs :=
  { rich := true,
    env := fun l =>
      if l = ["node", "--version"] then ProcResult.notFound
      else ProcResult.exited 0 "" "",
    confirmRich := true, confirmBasicResp := "",
    contRich := fun _ => true, contBasicResp := fun _ => "" }

/-- C5 witness: the concrete run with Node.js missing. -/
theorem C5_prereq_abort_witness :
    (∃ p ∈ prerequisites, isExitZero (inp5.env p.2.1) = false) ∧
    (run_installation inp5 commands = RunResult.exited 1 ∧
      processExitStatus (run_installation inp5 commands) = 1 ∧
      (check_prerequisites inp5.env).2 ≠ [] ∧
      (check_prerequisites inp5.env).2 =
        (prerequisites.filter (fun p => !(isExitZero (inp5.env p.2.1)))).map
          (fun p => p.2.2)) :=
  ⟨by decide, C5_prereq_abort inp5 commands (by decide)⟩

/-- C8 counterexample: `st8` declares a precheck and `env8` makes that
precheck exit 1, yet on the plain-console path `run_command` never runs the
precheck: the step is classified successful via its main invocation and no
remediation hint is emitted — refuting the claim for the fallback branch. -/
theorem C8_counterexample :
    st8.check_cmd = some ["s8", "check"] ∧
    env8 ["s8", "check"] = ProcResult.exited 1 "" "" ∧
    run_command false env8 st8 =
      (true, [Msg.basicRunning "run s8", Msg.completedOk "S8"]) := by
  decide

/-- C9 counterexample: a run in which `st9` times out and a run in which it
exits 1 produce identical final accumulator states, hence identical
summaries: the summary carries no `timedOut` indication distinguishing a
timeout from an ordinary non-zero-exit failure. -/
theorem C9_counterexample :
    inp9T.env ["s9"] = ProcResult.timedOut ∧
    inp9E.env ["s9"] = ProcResult.exited 1 "" "" ∧
    run_steps inp9T [st9] 1 initState = run_steps inp9E [st9] 1 initState ∧
    summaryNames (run_steps inp9T [st9] 1 initState).1 = ["S9"] := by
  decide

/-- C10 counterexample: for step `st10` (precheck exits 1, main invocation
exits 0) the rich path classifies the step as failed while the plain path
classifies it as successful — the two console paths do not agree for every
step and process behaviour. -/
theorem C10_counterexample :
    st10.check_cmd = some ["s10", "check"] ∧
    env10 ["s10", "check"] = ProcResult.exited 1 "" "" ∧
    env10 ["s10", "main"] = ProcResult.exited 0 "" "" ∧
    (run_command true env10 st10).1 = false ∧
    (run_command false env10 st10).1 = true := by
  decide

/-- C8 amended: on the rich-console path, any step that declares a precheck
whose invocation exits non-zero is classified as failed, and the
`install_hint` (when present) is emitted, followed by the exit-code failure
message — the main invocation's result never enters the outcome.  When the
main invocation differs from the precheck invocation, the non-attempt is
additionally observable: the whole result is unchanged under any
modification of the environment's behaviour at `c.cmd`. -/
theorem C8_amended_rich_precheck (env : List String → ProcResult)
    (c : Command) (chk : List String) (code : Int) (out err : String)
    (hchk : c.check_cmd = some chk)
    (hres : env chk = ProcResult.exited code out err)
    (hcode : code ≠ 0) :
    (run_command true env c).1 = false ∧
    (run_command true env c).2 =
      (match c.install_hint with
       | some h => [Msg.toolNotFoundHint h]
       | none => []) ++ [Msg.failedWithCode c.name code] ∧
    (c.cmd ≠ chk →
      ∀ r, run_command true (overrideEnv env c.cmd r) c =
        run_command true env c) := by
  refine ⟨?_, ?_, ?_⟩
  · simp [run_command, run_command_rich, hchk, hres, hcode]
  · simp [run_command, run_command_rich, hchk, hres, hcode]
  · intro hne r
    have hoe : overrideEnv env c.cmd r chk = env chk := by
      rw [overrideEnv, if_neg (fun hEq => hne hEq.symm)]
    simp [run_command, run_command_rich, hchk, hoe, hres, hcode]

/-- C8 amended witness: step `st8` under `env8` on the rich path. -/
theorem C8_amended_rich_precheck_witness :
    (st8.check_cmd = some ["s8", "check"] ∧
     env8 ["s8", "check"] = ProcResult.exited 1 "" "" ∧
     (1 : Int) ≠ 0) ∧
    ((run_command true env8 st8).1 = false ∧
     (run_command true env8 st8).2 =
       (match st8.install_hint with
        | some h => [Msg.toolNotFoundHint h]
        | none => []) ++ [Msg.failedWithCode st8.name 1] ∧
     (st8.cmd ≠ ["s8", "check"] →
       ∀ r, run_command true (overrideEnv env8 st8.cmd r) st8 =
         run_command true env8 st8)) :=
  ⟨⟨by decide, by decide, by decide⟩,
    C8_amended_rich_precheck env8 st8 ["s8", "check"] 1 "" "" (by decide)
      (by decide) (by decide)⟩

/-- C9 amended: a step whose invocation times out is classified as failed and
the `TimeoutExpired` never reaches the classification logic (`run_command`
returns normally); the rich path emits a timeout-specific per-step message,
while the basic path emits only its generic error message — and, per the C9
counterexample, the final summary does not distinguish the timeout from an
ordinary failure. -/
theorem C9_amended_timeout (env : List String → ProcResult) (c : Command)
    (ht : env c.cmd = ProcResult.timedOut)
    (hchk : c.check_cmd = none) :
    run_command true env c = (false, [Msg.timedOutMsg c.name]) ∧
    run_command false env c =
      (false, [Msg.basicRunning c.description, Msg.basicError c.name]) := by
  constructor
  · rw [run_command, if_pos rfl, run_command_rich, hchk, runMainRich, ht]
  · rw [run_command, if_neg (by simp), run_command_basic, ht]

/-- C9 amended witness: step `st9` timing out under `inp9T`'s environment. -/
theorem C9_amended_timeout_witness :
    (inp9T.env st9.cmd = ProcResult.timedOut ∧ st9.check_cmd = none) ∧
    (run_command true inp9T.env st9 = (false, [Msg.timedOutMsg st9.name]) ∧
     run_command false inp9T.env st9 =
       (false, [Msg.basicRunning st9.description, Msg.basicError st9.name])) :=
  ⟨⟨by decide, by decide⟩,
    C9_amended_timeout inp9T.env st9 (by decide) (by decide)⟩

/-- C10 amended: the rich and basic console paths of `run_command` agree on
the success/failure classification of every step that either declares no
precheck or whose precheck exits 0; they can disagree (see the C10
counterexample) only when a declared precheck fails while the main
invocation succeeds, because the basic path never runs the precheck. -/
theorem C10_amended_agree (env : List String → ProcResult) (c : Command)
    (h : c.check_cmd = none ∨
      ∃ chk out err, c.check_cmd = some chk ∧
        env chk = ProcResult.exited 0 out err) :
    (run_command true env c).1 = (run_command false env c).1 := by
  have hmain : (run_command true env c).1 = (runMainRich env c).1 := by
    rcases h with hnone | ⟨chk, out, err, hsome, hzero⟩
    · rw [run_command, if_pos rfl, run_command_rich, hnone]
    · simp [run_command, run_command_rich, hsome, hzero]
  rw [hmain, run_command, if_neg (by simp)]
  cases hm : env c.cmd with
  | exited code o e =>
      by_cases hz : code = 0 <;>
        simp [runMainRich, run_command_basic, hm, hz]
  | timedOut => simp [runMainRich, run_command_basic, hm]
  | notFound => simp [runMainRich, run_command_basic, hm]

/-- C10 amended witness: the precheck-free step `st9` under `inp9T`'s
environment is classified identically (as failed) on both paths. -/
theorem C10_amended_agree_witness :
    (st9.check_cmd = none ∨
      ∃ chk out err, st9.check_cmd = some chk ∧
        inp9T.env chk = ProcResult.exited 0 out err) ∧
    (run_command true inp9T.env st9).1 = (run_command false inp9T.env st9).1 :=
  ⟨Or.inl (by decide),
    C10_amended_agree inp9T.env st9 (Or.inl (by decide))⟩

end InstallBuild
